import Mathlib

/-!
Shallow embedding of the `sessions` Go package (cookie-based web sessions)
and proofs about the claims of its specification.

Conventions of the embedding:
* Go `time.Time` instants and `time.Duration` values are modelled as `Int`
  (nanoseconds); `time.Since t` becomes `now - t`, where every `time.Now()`
  call inside a single operation is modelled as the one instant `now` that
  the operation receives as a parameter.
* Go machine integers are modelled as `Nat`/`Int`; the 64-bit FNV-1a hash
  reduces modulo `2 ^ 64` at each step.
* Go maps are modelled as association lists with replace-on-insert
  semantics; Go `nil` pointers/slices become `Option`/`[]`.
* Fallible Go functions returning `error` become `Except String`; the
  persistence layer (an external collaborator behind the
  `PersistenceLayer` interface) is modelled as an injectable store with an
  error switch, in the style of the repository's own test layers, and with
  a call log so that write-through behaviour is observable.
* Go sessions are shared by pointer; where the source mutates a session
  object that the cache also holds, the model updates the cache entry
  under the key the object is stored at, so observable states coincide.
* `encoding/gob` is modelled as a stream of typed items
  (`Decode(Encode v) = v` per item); the session codec's field order,
  version byte and logged-in flag live above that model, exactly as in
  `GobEncode`/`GobDecode`.
* The CSPRNG behind `generateSesssionID` is modelled as a parameter
  carrying the freshly generated identifier (the success case).
-/

namespace Sessions

/-- Opaque Go `interface` values stored in a session's `data` map
(carrier-dependent payloads; their structure is irrelevant to the logic). -/
inductive Value where
  | vNull
  | vBool (b : Bool)
  | vNum (n : Int)
  | vStr (s : String)
deriving DecidableEq, Repr

/-- A user, as in the repository's `TestUser` realisation of the `User`
interface: `GetID` returns `id`; `item` stands for the rest of the record. -/
structure User where
  id : String
  item : String
deriving DecidableEq, Repr

/-- `alookup l k` is the Go map read `l[k]`. -/
def alookup {α : Type} : List (String × α) → String → Option α
  | [], _ => none
  | (k, v) :: rest, key => if k = key then some v else alookup rest key

/-- `aput l k v` is the Go map write `l[k] = v` (replace an existing
binding, else append). -/
def aput {α : Type} : List (String × α) → String → α → List (String × α)
  | [], key, v => [(key, v)]
  | (k, w) :: rest, key, v =>
    if k = key then (k, v) :: rest else (k, w) :: aput rest key v

/-- `adel l k` is the Go `delete(l, k)`. -/
def adel {α : Type} : List (String × α) → String → List (String × α)
  | [], _ => []
  | (k, w) :: rest, key => if k = key then rest else (k, w) :: adel rest key

/-! ## 4.A Keyed lock registry (`mutexes.go`)

Only the purge operation is needed by the claims.  `mutexItem` carries a
holder count and a last access instant; the coordinator's purge handler is

    for key, item := range m.items {
        if time.Since(item.lastAccess) > mutexStaleMutexes ||
            len(m.items) > mutexMaxCacheSize && item.locks == 0 {
            delete(m.items, key)
        }
    }

Go operator precedence parses the condition as
`stale || (overSize && unlocked)`, and `len(m.items)` shrinks while the
loop deletes.  The model iterates in list order (one admissible
linearisation of Go's unspecified map iteration order) and re-evaluates
the current size at each entry. -/

/-- `mutexItem` from `mutexes.go`: a lockable registry entry. -/
structure MutexItem where
  locks : Int
  lastAccess : Int
deriving DecidableEq, Repr

/-- The purge loop: `kept` holds the entries already visited and retained,
`todo` the entries not yet visited; the current map size when an entry is
examined is `kept.length + 1 + todo.length`. -/
def mutexPurgeGo (now stale : Int) (cap : Nat) :
    List (String × MutexItem) → List (String × MutexItem) →
    List (String × MutexItem)
  | kept, [] => kept
  | kept, (k, it) :: todo =>
    if now - it.lastAccess > stale ∨
        (kept.length + 1 + todo.length > cap ∧ it.locks = 0) then
      mutexPurgeGo now stale cap kept todo
    else
      mutexPurgeGo now stale cap (kept ++ [(k, it)]) todo

/-- The `purge` request handler of the mutex coordinator (`newMutexes`). -/
def mutexPurge (items : List (String × MutexItem)) (now stale : Int)
    (cap : Nat) : List (String × MutexItem) :=
  mutexPurgeGo now stale cap [] items

/-! ## Identifier fingerprint (`Start`, step 1)

`hash/fnv` 64-bit FNV-1a over the UTF-8 bytes of the `User-Agent` header. -/

/-- UTF-8 encoding of one scalar value (the bytes `fmt.Fprint` writes). -/
def charBytes (c : Char) : List Nat :=
  let n := c.toNat
  if n < 128 then [n]
  else if n < 2048 then [192 + n / 64, 128 + n % 64]
  else if n < 65536 then [224 + n / 4096, 128 + (n / 64) % 64, 128 + n % 64]
  else [240 + n / 262144, 128 + (n / 4096) % 64, 128 + (n / 64) % 64,
        128 + n % 64]

/-- UTF-8 bytes of a string. -/
def utf8Bytes (s : String) : List Nat := s.data.flatMap charBytes

/-- 64-bit FNV-1a (`fnv.New64a` fed with the string, then `Sum64`). -/
def fnv1a64 (s : String) : Nat :=
  (utf8Bytes s).foldl
    (fun h b => ((h ^^^ b) * 1099511628211) % 2 ^ 64)
    14695981039346656037

/-! ## Remote-IP check (`Start`, step 3)

The source matches both addresses against the anchored pattern
`^(\d+).(\d+).(\d+).(\d+):\d+$` (note the unescaped dots: they match any
character) with `regexp.FindStringSubmatch`, whose leftmost-first
semantics try longer `\d+` repetitions first.  `matchGroups` implements
exactly that backtracking for this fixed pattern; the submatch list has
the whole match at index 0 and the four groups at indices 1 to 4. -/

/-- The maximal `\d` prefix of the input and the remainder. -/
def digitRun : List Char → List Char × List Char
  | [] => ([], [])
  | c :: rest =>
    if c.isDigit then
      let p := digitRun rest
      (c :: p.1, p.2)
    else ([], c :: rest)

/-- All candidate matches of one `(\d+)` group, longest first, each with
the remaining input. -/
def digitSplits (l : List Char) : List (List Char × List Char) :=
  let p := digitRun l
  (List.range p.1.length).map fun i =>
    (p.1.take (p.1.length - i), p.1.drop (p.1.length - i) ++ p.2)

/-- Does the input match the pattern tail `:\d+$`? -/
def matchTail : List Char → Bool
  | [] => false
  | c :: rest => c == ':' && !rest.isEmpty && rest.all Char.isDigit

/-- First success in candidate order (the backtracking order). -/
def firstSome {α β : Type} (f : α → Option β) : List α → Option β
  | [] => none
  | a :: as =>
    match f a with
    | some b => some b
    | none => firstSome f as

/-- Match `n` remaining groups: each group is `(\d+)`; groups are
separated by one arbitrary character (the unescaped dot), and the last
group is followed by `:\d+$`. -/
def matchGroups : Nat → List Char → Option (List (List Char))
  | 0, _ => none
  | 1, l =>
    firstSome (fun p => if matchTail p.2 then some [p.1] else none)
      (digitSplits l)
  | n + 2, l =>
    firstSome (fun p =>
      match p.2 with
      | [] => none
      | _ :: rest2 => (matchGroups (n + 1) rest2).map (p.1 :: ·))
      (digitSplits l)

/-- `regexp.FindStringSubmatch` for the session IP pattern: `none` when
the address does not match; otherwise the 5-element submatch list. -/
def ipParse (s : String) : Option (List String) :=
  (matchGroups 4 s.data).map fun gs => s :: gs.map String.mk

/-- The remote-IP validity check of `Start` step 3 (`true` = the session
stays valid).  The `AcceptRemoteIP > 1` guard, the parse-failure skip, the
`AcceptRemoteIP <= 4` bound and the loop over submatches 1 to
`AcceptRemoteIP - 1` all mirror the source. -/
def remoteIPValid (acceptRemoteIP : Int) (lastIP remoteAddr : String) :
    Bool :=
  if acceptRemoteIP > 1 then
    match ipParse lastIP, ipParse remoteAddr with
    | some previousIP, some currentIP =>
      if acceptRemoteIP ≤ 4 then
        !((List.range' 1 (acceptRemoteIP - 1).toNat).any fun i =>
          previousIP.getD i "" != currentIP.getD i "")
      else true
    | _, _ => true
  else true

/-! ## Session value (`Session` struct) -/

/-- The `Session` struct.  `id` is the map key and is not serialized;
`user` is the attached user (`nil` = logged out); `referenceID` non-empty
marks a shadow session. -/
structure Session where
  id : String := ""
  user : Option User := none
  created : Int := 0
  lastAccess : Int := 0
  lastIP : String := ""
  lastUserAgentHash : Nat := 0
  referenceID : String := ""
  data : List (String × Value) := []
deriving DecidableEq, Repr

/-! ## Gob codec (`GobEncode` / `GobDecode`)

`encoding/gob` is modelled as a stream of typed items; encoding appends an
item, decoding pops one and fails on a type mismatch. -/

/-- One gob-encoded item. -/
inductive GobValue where
  | gUInt8 (n : Nat)
  | gTime (t : Int)
  | gStr (s : String)
  | gUInt64 (n : Nat)
  | gBool (b : Bool)
  | gUserID (v : String)
  | gData (d : List (String × Value))
deriving DecidableEq, Repr

/-- Pop a `uint8` item (`decoder.Decode(&version)`). -/
def popUInt8 : List GobValue → Except String (Nat × List GobValue)
  | .gUInt8 n :: rest => .ok (n, rest)
  | _ => .error "Unable to decode session version"

/-- Pop a `time.Time` item. -/
def popTime : List GobValue → Except String (Int × List GobValue)
  | .gTime t :: rest => .ok (t, rest)
  | _ => .error "Unable to decode session time"

/-- Pop a `string` item. -/
def popStr : List GobValue → Except String (String × List GobValue)
  | .gStr s :: rest => .ok (s, rest)
  | _ => .error "Unable to decode session string"

/-- Pop a `uint64` item. -/
def popUInt64 : List GobValue → Except String (Nat × List GobValue)
  | .gUInt64 n :: rest => .ok (n, rest)
  | _ => .error "Unable to decode hash of session remote user agent"

/-- Pop a `bool` item. -/
def popBool : List GobValue → Except String (Bool × List GobValue)
  | .gBool b :: rest => .ok (b, rest)
  | _ => .error "Unable to decode log-in state"

/-- Pop the user-ID struct detour item. -/
def popUserID : List GobValue → Except String (String × List GobValue)
  | .gUserID v :: rest => .ok (v, rest)
  | _ => .error "Unable to decode user ID"

/-- Pop the custom-data map item. -/
def popData :
    List GobValue → Except String (List (String × Value) × List GobValue)
  | .gData d :: rest => .ok (d, rest)
  | _ => .error "Unable to decode session data"

/-- `Session.GobEncode`: version byte 1, then the fields in fixed order,
with the logged-in flag and, only when logged in, the user's ID. -/
def gobEncode (s : Session) : List GobValue :=
  [.gUInt8 1, .gTime s.created, .gTime s.lastAccess, .gStr s.lastIP,
   .gUInt64 s.lastUserAgentHash, .gStr s.referenceID,
   .gBool s.user.isSome] ++
  (match s.user with
   | some u => [.gUserID u.id]
   | none => []) ++
  [.gData s.data]

/-- `Session.GobDecode`: reads the fields in the order `GobEncode` wrote
them.  The version item is read but its value is not validated, exactly
as in the source.  A logged-in user ID is resolved through the modelled
`LoadUser` (a lookup in the users table; an unknown ID yields no user,
as with a `LoadUserFunc` that returns `nil, nil`). -/
def gobDecode (users : List (String × User)) (src : List GobValue) :
    Except String Session := do
  let p0 ← popUInt8 src
  let p1 ← popTime p0.2
  let p2 ← popTime p1.2
  let p3 ← popStr p2.2
  let p4 ← popUInt64 p3.2
  let p5 ← popStr p4.2
  let p6 ← popBool p5.2
  let pu ←
    if p6.1 then do
      let p7 ← popUserID p6.2
      pure (alookup users p7.1, p7.2)
    else
      pure ((none : Option User), p6.2)
  let p8 ← popData pu.2
  pure { id := "", user := pu.1, created := p1.1, lastAccess := p2.1,
         lastIP := p3.1, lastUserAgentHash := p4.1, referenceID := p5.1,
         data := p8.1 }

/-! ## JSON codec (`UnmarshalJSON`)

The input is the `map[string]interface{}` produced by `json.Unmarshal`;
JSON numbers arrive as Go `float64` values, modelled as integers here
(the claims only concern integer versions). -/

/-- A decoded JSON value as `UnmarshalJSON` sees it. -/
inductive JVal where
  | jNull
  | jBool (b : Bool)
  | jNum (n : Int)
  | jStr (s : String)
  | jObj (o : List (String × Value))
deriving DecidableEq, Repr

/-- Modelled stand-in for `time.Parse(time.RFC3339, s)`: the inverse of an
injective rendering of the instant. -/
def timeParse (s : String) : Option Int := s.toInt?

/-- One base-36 digit as accepted by `strconv.ParseUint(s, 36, 64)`. -/
def base36Digit (c : Char) : Option Nat :=
  if c.isDigit then some (c.toNat - 48)
  else if 'a' ≤ c ∧ c ≤ 'z' then some (c.toNat - 97 + 10)
  else if 'A' ≤ c ∧ c ≤ 'Z' then some (c.toNat - 65 + 10)
  else none

/-- `strconv.ParseUint(s, 36, 64)`: base-36, 64-bit bound. -/
def parseUint36 (s : String) : Option Nat :=
  if s.isEmpty then none
  else
    s.data.foldl
      (fun acc c =>
        match acc, base36Digit c with
        | some n, some d =>
          if n * 36 + d < 2 ^ 64 then some (n * 36 + d) else none
        | _, _ => none)
      (some 0)

/-- The modelled `LoadUser` applied to the raw `us` value: a string ID is
looked up in the users table, anything else resolves to no user. -/
def loadUserJ (users : List (String × User)) : JVal → Option User
  | .jStr s => alookup users s
  | _ => none

/-- `Session.UnmarshalJSON` after `json.Unmarshal` produced the field
map: the field checks, the version test, the time and base-36 parses and
the optional `rf`/`us` fields mirror the source in order. -/
def jsonUnmarshal (users : List (String × User))
    (obj : List (String × JVal)) : Except String Session := do
  let v ← match alookup obj "v" with
    | some v => pure v
    | none => throw "Missing version number"
  let version ← match v with
    | JVal.jNum n => pure n
    | _ => throw "Invalid version type"
  if version ≠ 1 then throw "Invalid version" else
  let cr ← match alookup obj "cr" with
    | some cr => pure cr
    | none => throw "Missing session creation time"
  let createdS ← match cr with
    | JVal.jStr s => pure s
    | _ => throw "Invalid session creation type"
  let created ← match timeParse createdS with
    | some t => pure t
    | none => throw "Cannot parse session creation time"
  let la ← match alookup obj "la" with
    | some la => pure la
    | none => throw "Missing session last access time"
  let lastAccessS ← match la with
    | JVal.jStr s => pure s
    | _ => throw "Invalid session last access type"
  let lastAccess ← match timeParse lastAccessS with
    | some t => pure t
    | none => throw "Cannot parse session last access time"
  let ip ← match alookup obj "ip" with
    | some ip => pure ip
    | none => throw "Missing session remote IP"
  let lastIP ← match ip with
    | JVal.jStr s => pure s
    | _ => throw "Invalid session remote IP type"
  let ua ← match alookup obj "ua" with
    | some ua => pure ua
    | none => throw "Missing hash of session remote user agent"
  let agentHashS ← match ua with
    | JVal.jStr s => pure s
    | _ => throw "Invalid hash of session remote user agent type"
  let lastUserAgentHash ← match parseUint36 agentHashS with
    | some h => pure h
    | none => throw "Invalid hash of session remote user agent"
  let referenceID ← match alookup obj "rf" with
    | some rf =>
      match rf with
      | JVal.jStr s => pure s
      | _ => throw "Invalid reference ID type"
    | none => pure ""
  let user ← match alookup obj "us" with
    | some us => pure (loadUserJ users us)
    | none => pure (none : Option User)
  let da ← match alookup obj "da" with
    | some da => pure da
    | none => throw "Missing session data"
  let data ← match da with
    | JVal.jObj o => pure o
    | _ => throw "Invalid session data type"
  pure { id := "", user := user, created := created,
         lastAccess := lastAccess, lastIP := lastIP,
         lastUserAgentHash := lastUserAgentHash,
         referenceID := referenceID, data := data }

/-! ## Persistence layer (modelled external collaborator)

An `ExtendablePersistenceLayer`-style store: a session table, a users
table, a configured `UserSessions` answer, an error switch for
`SaveSession`, and call logs. -/

/-- The modelled persistence backend. -/
structure BackendState where
  table : List (String × Session)
  users : List (String × User)
  userSessionsList : Option (List String)
  saveFails : Bool
  saveLog : List (String × Session)
  deleteLog : List String
deriving DecidableEq, Repr

/-- `Persistence.SaveSession`: the call is logged; on success the table is
upserted, on the injected failure the table is unchanged and the error is
returned. -/
def saveSession (b : BackendState) (id : String) (s : Session) :
    Except String Unit × BackendState :=
  let b := { b with saveLog := b.saveLog ++ [(id, s)] }
  if b.saveFails then (.error "save failed", b)
  else (.ok (), { b with table := aput b.table id s })

/-- `Persistence.LoadSession`: a table lookup; `none` is the successful
no-such-session answer (load errors are not injected in this model). -/
def loadSession (b : BackendState) (id : String) : Option Session :=
  alookup b.table id

/-- `Persistence.DeleteSession`: deleting an absent ID is success. -/
def deleteSession (b : BackendState) (id : String) :
    Except String Unit × BackendState :=
  (.ok (),
   { b with table := adel b.table id, deleteLog := b.deleteLog ++ [id] })

/-! ## Session data operations (`Set` / `Get` / `GetAndDelete` /
`Delete`) -/

/-- `Session.Set`: writes the key, then write-through `SaveSession`; the
returned error is the error from `SaveSession`. -/
def sessionSet (s : Session) (key : String) (value : Value)
    (b : BackendState) : Except String Unit × Session × BackendState :=
  let s := { s with data := aput s.data key value }
  let p := saveSession b s.id s
  (p.1, s, p.2)

/-- `Session.Get`: the stored value, or the default. -/
def sessionGet (s : Session) (key : String) (defV : Value) : Value :=
  match alookup s.data key with
  | some v => v
  | none => defV

/-- `Session.GetAndDelete`: returns the stored value (or the default) and
removes the key.  The persistence layer is threaded through so that
write-through calls would be observable; the source performs none, so the
backend is returned unchanged and no error is produced. -/
def sessionGetAndDelete (s : Session) (key : String) (defV : Value)
    (b : BackendState) : Value × Session × BackendState :=
  match alookup s.data key with
  | some v => (v, { s with data := adel s.data key }, b)
  | none => (defV, s, b)

/-- `Session.Delete`: removes the key, then write-through `SaveSession`;
the returned error is the error from `SaveSession`. -/
def sessionDelete (s : Session) (key : String) (b : BackendState) :
    Except String Unit × Session × BackendState :=
  let s := { s with data := adel s.data key }
  let p := saveSession b s.id s
  (p.1, s, p.2)

/-! ## Configuration and world state -/

/-- The package-level configuration variables used by the claims. -/
structure Config where
  sessionExpiry : Int
  sessionIDExpiry : Int
  sessionIDGracePeriod : Int
  acceptRemoteIP : Int
  acceptChangingUserAgent : Bool
  sessionCookie : String
  maxSessionCacheSize : Int
  sessionCacheExpiry : Int
deriving Repr

/-- The mutable world: the session cache map, the persistence backend and
the pending one-shot deletion timers scheduled by `RegenerateID`. -/
structure World where
  cache : List (String × Session)
  backend : BackendState
  timers : List (Int × String)
deriving DecidableEq, Repr

/-! ## Session cache (`cache.Get` / `cache.Set` / `cache.Delete` /
`cache.compact`) -/

/-- First pass of `cache.compact`: write back and evict every session
whose idle age exceeds `SessionCacheExpiry`; a `SaveSession` error aborts
the pass with the entry still present. -/
def compactPass1 (cfg : Config) (now : Int) :
    List (String × Session) → List (String × Session) → BackendState →
    List (String × Session) × BackendState × Except String Unit
  | kept, [], b => (kept, b, .ok ())
  | kept, (id, s) :: todo, b =>
    if now - s.lastAccess > cfg.sessionCacheExpiry then
      match saveSession b id s with
      | (.error e, b) => (kept ++ (id, s) :: todo, b, .error e)
      | (.ok _, b) => compactPass1 cfg now kept todo b
    else compactPass1 cfg now (kept ++ [(id, s)]) todo b

/-- The oldest-entry scan of `cache.compact`: first-visited entry wins,
then any strictly older entry replaces it (the initial time is never
consulted because of the short-circuit on the empty ID). -/
def findOldestGo :
    List (String × Session) → String → Int → String × Int
  | [], oid, ot => (oid, ot)
  | (id, s) :: rest, oid, ot =>
    if oid = "" ∨ s.lastAccess < ot then findOldestGo rest id s.lastAccess
    else findOldestGo rest oid ot

/-- Second pass of `cache.compact`: while the map exceeds capacity, write
back and evict the entry with the smallest last access time.  The fuel is
an upper bound on iterations; each iteration removes one entry, so
`cache.length + 1` fuel is never exhausted. -/
def compactPass2 (cfg : Config) :
    Nat → Int → List (String × Session) → BackendState →
    List (String × Session) × BackendState × Except String Unit
  | 0, _, c, b => (c, b, .ok ())
  | fuel + 1, requiredSpace, c, b =>
    if (c.length : Int) + requiredSpace > cfg.maxSessionCacheSize then
      let oldest := findOldestGo c "" 0
      match alookup c oldest.1 with
      | none => (c, b, .ok ())
      | some s =>
        match saveSession b oldest.1 s with
        | (.error e, b) => (c, b, .error e)
        | (.ok _, b) =>
          compactPass2 cfg fuel requiredSpace (adel c oldest.1) b
    else (c, b, .ok ())

/-- `cache.compact`: the idle-age pass, the unbounded/fits early return,
the clamp of `requiredSpace` to the capacity, then the oldest-eviction
loop. -/
def compact (cfg : Config) (now : Int) (w : World) (requiredSpace : Int) :
    World × Except String Unit :=
  let p1 := compactPass1 cfg now [] w.cache w.backend
  match p1.2.2 with
  | .error e => ({ w with cache := p1.1, backend := p1.2.1 }, .error e)
  | .ok _ =>
    let c := p1.1
    let b := p1.2.1
    if cfg.maxSessionCacheSize < 0 ∨
        (c.length : Int) + requiredSpace ≤ cfg.maxSessionCacheSize then
      ({ w with cache := c, backend := b }, .ok ())
    else
      let rs := if requiredSpace > cfg.maxSessionCacheSize
        then cfg.maxSessionCacheSize else requiredSpace
      let p2 := compactPass2 cfg (c.length + 1) rs c b
      ({ w with cache := p2.1, backend := p2.2.1 }, p2.2.2)

/-- `cache.Get`: the cached session if present, else a load through the
persistence layer; a loaded session gets its `id` field set and, unless
the cache is disabled, is inserted after a compaction whose result is
discarded.  `Get` does not update the last access time. -/
def cacheGet (cfg : Config) (now : Int) (w : World) (id : String) :
    Except String (Option Session) × World :=
  match alookup w.cache id with
  | some session => (.ok (some session), w)
  | none =>
    match loadSession w.backend id with
    | none => (.ok none, w)
    | some session =>
      let session := { session with id := id }
      if cfg.maxSessionCacheSize ≠ 0 then
        let wc := (compact cfg now w 1).1
        (.ok (some session), { wc with cache := aput wc.cache id session })
      else (.ok (some session), w)

/-- `cache.Set`: stamps `lastAccess = now`, compacts (result discarded),
inserts unless the cache is disabled, then writes through.  The source
ends in `if err := Persistence.SaveSession(id, session); err != nil
{ return nil }` followed by `return nil`, so the `SaveSession` error is
swallowed and `Set` always reports success; the model mirrors this
faithfully.  The stamped session is returned because the caller's object
is mutated through the shared pointer. -/
def cacheSet (cfg : Config) (now : Int) (w : World) (session : Session) :
    Except String Unit × World × Session :=
  let session := { session with lastAccess := now }
  let id := session.id
  let requiredSpace : Int := if (alookup w.cache id).isSome then 0 else 1
  let w := (compact cfg now w requiredSpace).1
  let w := if cfg.maxSessionCacheSize ≠ 0
    then { w with cache := aput w.cache id session } else w
  let p := saveSession w.backend id session
  let w := { w with backend := p.2 }
  match p.1 with
  | .error _ => (.ok (), w, session)
  | .ok _ => (.ok (), w, session)

/-- `cache.Delete`: removes the entry and deletes through the persistence
layer. -/
def cacheDelete (w : World) (id : String) : Except String Unit × World :=
  let w := { w with cache := adel w.cache id }
  let p := deleteSession w.backend id
  (p.1, { w with backend := p.2 })

/-! ## Session lifecycle (`RegenerateID` / `Destroy` / `Start`) -/

/-- `Session.RegenerateID`: reassigns a fresh ID, resets `created = now`,
stores the primary under the new ID, stores a reference (shadow) session
under the old ID, schedules the shadow's deletion after the grace period
and emits a cookie with the new ID.  Note that the shadow's `created` is
copied from `s.created` after the reset, and both `cache.Set` calls stamp
`lastAccess = now`. -/
def regenerateID (cfg : Config) (now : Int) (w : World) (s : Session)
    (freshID : String) :
    Except String Unit × World × Session × List (String × String) :=
  let oldID := s.id
  let s := { s with id := freshID, created := now }
  match cacheSet cfg now w s with
  | (.error e, w, s) => (.error e, w, s, [])
  | (.ok _, w, s) =>
    let refSession : Session :=
      { id := oldID, created := s.created,
        lastAccess := now - cfg.sessionIDExpiry, lastIP := s.lastIP,
        lastUserAgentHash := s.lastUserAgentHash, referenceID := freshID,
        user := none, data := [] }
    match cacheSet cfg now w refSession with
    | (.error e, w, _) => (.error e, w, s, [])
    | (.ok _, w, _) =>
      let w := { w with
        timers := w.timers ++ [(now + cfg.sessionIDGracePeriod, oldID)] }
      (.ok (), w, s, [(cfg.sessionCookie, freshID)])

/-- `Session.Destroy`: deletes the session from cache and persistence and
emits a deletion cookie derived from the request's session cookie. -/
def destroy (cfg : Config) (w : World) (s : Session)
    (reqCookie : Option String) :
    Except String Unit × World × List (String × String) :=
  match cacheDelete w s.id with
  | (.error e, w) => (.error e, w, [])
  | (.ok _, w) =>
    match reqCookie with
    | none => (.error "Could not retrieve session cookie", w, [])
    | some _ => (.ok (), w, [(cfg.sessionCookie, "deleted")])

/-- An incoming HTTP request as `Start` sees it: the session-cookie value
if the cookie is present, the `User-Agent` header and the remote
address. -/
structure Request where
  cookie : Option String
  userAgent : String
  remoteAddr : String
deriving Repr

/-- The step-3 validity checks of `Start`: staleness, remote-IP prefix
and user-agent hash, applied in source order. -/
def startValid (cfg : Config) (now : Int) (session : Session)
    (req : Request) (agentHash : Nat) : Bool :=
  let timeUntouched := now - session.lastAccess
  let valid := !decide (timeUntouched ≥ cfg.sessionExpiry)
  let valid :=
    valid && remoteIPValid cfg.acceptRemoteIP session.lastIP req.remoteAddr
  if valid && !cfg.acceptChangingUserAgent
    then decide (session.lastUserAgentHash = agentHash) else valid

/-- The step-7 touch of `Start`: sets `lastAccess`, `lastIP` and the
user-agent hash on the selected session and returns it.  The session
object is shared with the cache under `key` when cached, so the cache
entry is updated in place. -/
def startTouch (_cfg : Config) (now : Int) (w : World) (req : Request)
    (agentHash : Nat) (session : Session) (key : String)
    (cks : List (String × String)) :
    Except String (Option Session) × World × List (String × String) :=
  let session := { session with
    lastAccess := now
    lastIP := req.remoteAddr
    lastUserAgentHash := agentHash }
  let w := if (alookup w.cache key).isSome
    then { w with cache := aput w.cache key session } else w
  (.ok (some session), w, cks)

/-- The step-5 shadow follow of `Start`: a session with a non-empty
`referenceID` redirects the cookie to the reference and the referenced
session is fetched and touched; no further checks are applied to it. -/
def startFollow (cfg : Config) (now : Int) (w : World) (req : Request)
    (agentHash : Nat) (session : Session) (key : String)
    (cks : List (String × String)) :
    Except String (Option Session) × World × List (String × String) :=
  if session.referenceID ≠ "" then
    let cks := cks ++ [(cfg.sessionCookie, session.referenceID)]
    match cacheGet cfg now w session.referenceID with
    | (.error e, w) =>
      (.error ("Could not get referenced session: " ++ e), w, cks)
    | (.ok none, w) => (.error "Reference session not found", w, cks)
    | (.ok (some s2), w) =>
      startTouch cfg now w req agentHash s2 session.referenceID cks
  else startTouch cfg now w req agentHash session key cks

/-- The step-6 creation path of `Start`: with `createIfNew` a fresh
primary session is built, stored (the `Set` result is ignored, as in the
source) and announced with a cookie. -/
def startCreate (cfg : Config) (now : Int) (w : World) (req : Request)
    (createIfNew : Bool) (agentHash : Nat) (freshID : String)
    (cks : List (String × String)) :
    Except String (Option Session) × World × List (String × String) :=
  if !createIfNew then (.ok none, w, cks)
  else
    let session : Session :=
      { id := freshID, created := now, lastAccess := now,
        lastIP := req.remoteAddr, lastUserAgentHash := agentHash,
        user := none, referenceID := "", data := [] }
    let p := cacheSet cfg now w session
    (.ok (some p.2.2), p.2.1, cks ++ [(cfg.sessionCookie, freshID)])

/-- `Start`: the request state machine.  Fingerprint, candidate fetch
(deletion cookie when unknown), validity checks with destruction on
anomaly, rotation when a primary's ID has expired, failure with `Session
expired` when the grace period is past, shadow follow, creation, touch. -/
def start (cfg : Config) (now : Int) (w : World) (req : Request)
    (createIfNew : Bool) (freshID : String) :
    Except String (Option Session) × World × List (String × String) :=
  let agentHash := if req.userAgent ≠ "" then fnv1a64 req.userAgent else 0
  let id := req.cookie.getD ""
  if id.length = 24 then
    match cacheGet cfg now w id with
    | (.error e, w) =>
      (.error ("Could not get session from cache: " ++ e), w, [])
    | (.ok none, w) =>
      startCreate cfg now w req createIfNew agentHash freshID
        [(cfg.sessionCookie, "deleted")]
    | (.ok (some session), w) =>
      let age := now - session.created
      if startValid cfg now session req agentHash = false then
        match destroy cfg w session req.cookie with
        | (.error e, w, cks2) =>
          (.error ("Could not destroy expired session: " ++ e), w, cks2)
        | (.ok _, w, cks2) =>
          startCreate cfg now w req createIfNew agentHash freshID cks2
      else
        if session.referenceID = "" ∧ age ≥ cfg.sessionIDExpiry then
          match regenerateID cfg now w session freshID with
          | (.error e, w, _, cks2) => (.error e, w, cks2)
          | (.ok _, w, session, cks2) =>
            startFollow cfg now w req agentHash session session.id cks2
        else if age ≥ cfg.sessionIDExpiry + cfg.sessionIDGracePeriod then
          match cacheDelete w id with
          | (.error e, w) =>
            (.error ("Could not delete session with expired ID: " ++ e),
             w, [])
          | (.ok _, w) => (.error "Session expired", w, [])
        else startFollow cfg now w req agentHash session id []
  else startCreate cfg now w req createIfNew agentHash freshID []

/-! ## User-scoped operations (`LogOut(userID)` / `RefreshUser`) -/

/-- The outcome of a user-scoped operation: success, a returned error, or
the runtime fault of dereferencing a nil session. -/
inductive UserOpResult where
  | ok (w : World)
  | fail (e : String)
  | nilDeref
deriving Repr

/-- The shared per-session loop of `LogOut(userID)` and `RefreshUser`
(their Go bodies are identical up to the assigned user): fetch through
the cache, assign the user, store through the cache.  When the fetch
yields no session, `session.Lock()` dereferences a nil pointer: that is
the `nilDeref` outcome, not a returned error. -/
def reassignLoop (cfg : Config) (now : Int) (newUser : Option User) :
    List String → World → UserOpResult
  | [], w => .ok w
  | sessionID :: rest, w =>
    match cacheGet cfg now w sessionID with
    | (.error e, _) => .fail e
    | (.ok none, _) => .nilDeref
    | (.ok (some session), w) =>
      let session := { session with user := newUser }
      match cacheSet cfg now w session with
      | (.error e, _, _) => .fail e
      | (.ok _, w, _) => reassignLoop cfg now newUser rest w

/-- Package-level `LogOut(userID)`: iterates the IDs that `UserSessions`
returns (a `nil` answer makes the loop empty) and clears the user on each
session.  The modelled `UserSessions` answers with the configured list,
like an injected `UserSessionsFunc`. -/
def logOut (cfg : Config) (now : Int) (w : World) (_userID : String) :
    UserOpResult :=
  match w.backend.userSessionsList with
  | none => .ok w
  | some ids => reassignLoop cfg now none ids w

/-- `RefreshUser(user)`: like `LogOut`, but re-attaches the given user to
each of the user's sessions. -/
def refreshUser (cfg : Config) (now : Int) (w : World) (user : User) :
    UserOpResult :=
  match w.backend.userSessionsList with
  | none => .ok w
  | some ids => reassignLoop cfg now (some user) ids w

/-- Does `id` resolve, via the cache or the persistence table, to a
session?  (`cache.Get` returns a session exactly in this case.) -/
def resolves (w : World) (id : String) : Bool :=
  (alookup w.cache id).isSome || (alookup w.backend.table id).isSome

/-- The class of worlds used for the `LogOut` / `RefreshUser` and
`RegenerateID` theorems: unbounded cache, a non-negative idle threshold,
no injected save failures, the `id` field of every stored session agrees
with its key, and no stored session is idle beyond the threshold (so
compaction evicts nothing). -/
def stableWorld (cfg : Config) (now : Int) (w : World) : Prop :=
  cfg.maxSessionCacheSize < 0 ∧ 0 ≤ cfg.sessionCacheExpiry ∧
  w.backend.saveFails = false ∧
  (∀ p ∈ w.cache, (Prod.snd p).id = Prod.fst p) ∧
  (∀ p ∈ w.backend.table, (Prod.snd p).id = Prod.fst p) ∧
  (∀ p ∈ w.cache,
    now - (Prod.snd p).lastAccess ≤ cfg.sessionCacheExpiry) ∧
  (∀ p ∈ w.backend.table,
    now - (Prod.snd p).lastAccess ≤ cfg.sessionCacheExpiry)

/-- After a user-scoped loop has processed `id`, the cache and the table
agree on a session for `id` carrying the assigned user and a fresh access
time. -/
def goodAt (now : Int) (w : World) (id : String) (u : Option User) :
    Prop :=
  ∃ s, alookup w.cache id = some s ∧
    alookup w.backend.table id = some s ∧
    s.user = u ∧ s.lastAccess = now ∧ s.id = id

deriving instance DecidableEq for Except

/-! ## Concrete fixtures for counterexamples and witnesses -/

/-- A benign configuration: anomaly checks disabled, unbounded cache,
rotation interval 10 and grace period 5 (nanoseconds, for readability). -/
def cfgFix : Config :=
  { sessionExpiry := 1000, sessionIDExpiry := 10,
    sessionIDGracePeriod := 5, acceptRemoteIP := 1,
    acceptChangingUserAgent := true, sessionCookie := "id",
    maxSessionCacheSize := -1, sessionCacheExpiry := 1000 }

/-- An empty, error-free backend. -/
def backendFix : BackendState :=
  { table := [], users := [], userSessionsList := none,
    saveFails := false, saveLog := [], deleteLog := [] }

/-- A 24-character session identifier. -/
def idA : String := "AAAAAAAAAAAAAAAAAAAAAAAA"

/-- A second 24-character session identifier. -/
def idB : String := "BBBBBBBBBBBBBBBBBBBBBBBB"

/-- A third 24-character session identifier (used as a fresh ID). -/
def idF : String := "FFFFFFFFFFFFFFFFFFFFFFFF"

/-- A shadow session fixture: created at 85, pointing at `idB`. -/
def sessShadow : Session :=
  { id := idA, user := none, created := 85, lastAccess := 99,
    lastIP := "", lastUserAgentHash := 0, referenceID := idB,
    data := [] }

/-- A fresh shadow session fixture: created at 95, pointing at `idB`. -/
def sessShadowFresh : Session :=
  { id := idA, user := none, created := 95, lastAccess := 99,
    lastIP := "", lastUserAgentHash := 0, referenceID := idB,
    data := [] }

/-- A second-level shadow fixture stored under `idB`, itself pointing at
`idF`. -/
def sessShadowB : Session :=
  { id := idB, user := none, created := 99, lastAccess := 99,
    lastIP := "", lastUserAgentHash := 0, referenceID := idF,
    data := [] }

/-- A session created at 50, for the rotation counterexample. -/
def sessOld : Session :=
  { id := idA, user := none, created := 50, lastAccess := 99,
    lastIP := "", lastUserAgentHash := 0, referenceID := "", data := [] }

/-- A user fixture. -/
def userFix : User := { id := "u1", item := "x" }

/-- A cached session of `userFix` stored under `idA`. -/
def sessUserA : Session :=
  { id := idA, user := some userFix, created := 1, lastAccess := 99,
    lastIP := "", lastUserAgentHash := 0, referenceID := "", data := [] }

/-- A persisted session of `userFix` stored under `idB`. -/
def sessUserB : Session :=
  { id := idB, user := some userFix, created := 1, lastAccess := 99,
    lastIP := "", lastUserAgentHash := 0, referenceID := "", data := [] }

/-- A backend whose `UserSessions` lists `idA` and `idB` and whose table
holds `sessUserB`. -/
def backendU : BackendState :=
  { table := [(idB, sessUserB)], users := [],
    userSessionsList := some [idA, idB], saveFails := false,
    saveLog := [], deleteLog := [] }

/-- A world caching `sessUserA` over `backendU`. -/
def worldU : World :=
  { cache := [(idA, sessUserA)], backend := backendU, timers := [] }

/-- A concrete session fixture for codec claims. -/
def sessFix : Session :=
  { id := "", user := none, created := 1, lastAccess := 2, lastIP := "ip",
    lastUserAgentHash := 3, referenceID := "",
    data := [("field", Value.vStr "value")] }

/-! # Theorems -/

/-! ## Association-list lemmas -/

lemma alookup_aput_self {α : Type} (l : List (String × α)) (k : String)
    (v : α) : alookup (aput l k v) k = some v := by
  induction l with
  | nil => simp [aput, alookup]
  | cons p rest ih =>
    obtain ⟨k', v'⟩ := p
    by_cases h : k' = k
    · simp [aput, alookup, h]
    · simp [aput, alookup, h, ih]

lemma alookup_aput_ne {α : Type} (l : List (String × α)) (k j : String)
    (v : α) (hne : j ≠ k) : alookup (aput l k v) j = alookup l j := by
  have hkj : ¬ k = j := fun h => hne h.symm
  induction l with
  | nil => simp [aput, alookup, hkj]
  | cons p rest ih =>
    obtain ⟨k', v'⟩ := p
    by_cases h : k' = k
    · subst h
      simp [aput, alookup, hkj]
    · by_cases h2 : k' = j
      · simp [aput, alookup, h, h2, hne]
      · simp [aput, alookup, h, h2, ih]

lemma mem_aput {α : Type} (l : List (String × α)) (k : String) (v : α) :
    ∀ p ∈ aput l k v, p ∈ l ∨ p = (k, v) := by
  induction l with
  | nil => intro p hp; right; simpa [aput] using hp
  | cons q rest ih =>
    obtain ⟨k', v'⟩ := q
    intro p hp
    by_cases h : k' = k
    · subst h
      simp only [aput, if_pos rfl] at hp
      rcases List.mem_cons.1 hp with h1 | h1
      · right; simpa using h1
      · left; exact List.mem_cons_of_mem _ h1
    · simp only [aput, if_neg h] at hp
      rcases List.mem_cons.1 hp with h1 | h1
      · left; simp [h1]
      · rcases ih p h1 with h2 | h2
        · left; exact List.mem_cons_of_mem _ h2
        · right; exact h2

lemma mem_keys_of_alookup {α : Type} (l : List (String × α)) (k : String)
    (v : α) (h : alookup l k = some v) : k ∈ l.map Prod.fst := by
  induction l with
  | nil => simp [alookup] at h
  | cons p rest ih =>
    obtain ⟨k', v'⟩ := p
    by_cases h2 : k' = k
    · simp [h2]
    · simp only [alookup, if_neg h2] at h
      simp [ih h]

lemma alookup_adel_self {α : Type} (l : List (String × α)) (k : String) :
    (l.map Prod.fst).Nodup → alookup (adel l k) k = none := by
  induction l with
  | nil => intro _; simp [adel, alookup]
  | cons p rest ih =>
    intro hnd
    obtain ⟨k', v'⟩ := p
    simp only [List.map_cons, List.nodup_cons] at hnd
    by_cases h : k' = k
    · subst h
      cases hcur : alookup rest k' with
      | none => simp [adel, hcur]
      | some v2 => exact absurd (mem_keys_of_alookup rest k' v2 hcur) hnd.1
    · simp [adel, alookup, h, ih hnd.2]

lemma aput_aput {α : Type} (l : List (String × α)) (k : String)
    (v v' : α) : aput (aput l k v) k v' = aput l k v' := by
  induction l with
  | nil => simp [aput]
  | cons p rest ih =>
    obtain ⟨k', w'⟩ := p
    by_cases h : k' = k
    · simp [aput, h]
    · simp [aput, h, ih]

/-! ## C1: mutex purge lemmas -/

lemma mutexPurgeGo_mem_of_kept (now stale : Int) (cap : Nat)
    (k : String) (it : MutexItem) :
    ∀ (todo kept : List (String × MutexItem)),
      (k, it) ∈ kept → (k, it) ∈ mutexPurgeGo now stale cap kept todo := by
  intro todo
  induction todo with
  | nil => intro kept h; simpa [mutexPurgeGo] using h
  | cons e todo ih =>
    intro kept h
    obtain ⟨k', it'⟩ := e
    by_cases hc : now - it'.lastAccess > stale ∨
        (kept.length + 1 + todo.length > cap ∧ it'.locks = 0)
    · simpa [mutexPurgeGo, hc] using ih kept h
    · simp only [mutexPurgeGo, hc, if_false]
      exact ih (kept ++ [(k', it')]) (by simp [h])

lemma mutexPurgeGo_keeps_held_fresh (now stale : Int) (cap : Nat)
    (k : String) (it : MutexItem) (hlock : it.locks ≠ 0)
    (hfresh : ¬ now - it.lastAccess > stale) :
    ∀ (todo kept : List (String × MutexItem)),
      (k, it) ∈ todo → (k, it) ∈ mutexPurgeGo now stale cap kept todo := by
  intro todo
  induction todo with
  | nil => intro kept h; cases h
  | cons e todo ih =>
    intro kept h
    obtain ⟨k', it'⟩ := e
    by_cases hc : now - it'.lastAccess > stale ∨
        (kept.length + 1 + todo.length > cap ∧ it'.locks = 0)
    · rcases List.mem_cons.1 h with heq | hmem
      · exfalso
        have h1 : it' = it := by
          have := congrArg Prod.snd heq.symm
          simpa using this
        subst h1
        rcases hc with hst | ⟨_, hl⟩
        · exact hfresh hst
        · exact hlock hl
      · simpa [mutexPurgeGo, hc] using ih kept hmem
    · simp only [mutexPurgeGo, hc, if_false]
      rcases List.mem_cons.1 h with heq | hmem
      · exact mutexPurgeGo_mem_of_kept now stale cap k it todo _
          (by simp [heq])
      · exact ih (kept ++ [(k', it')]) hmem

lemma mutexPurgeGo_drops_stale (now stale : Int) (cap : Nat)
    (k : String) (it : MutexItem) (hstale : now - it.lastAccess > stale) :
    ∀ (todo kept : List (String × MutexItem)),
      (∀ e ∈ kept, ¬ now - (Prod.snd e).lastAccess > stale) →
      (k, it) ∉ mutexPurgeGo now stale cap kept todo := by
  intro todo
  induction todo with
  | nil =>
    intro kept hkept h
    exact hkept _ (by simpa [mutexPurgeGo] using h) hstale
  | cons e todo ih =>
    intro kept hkept
    obtain ⟨k', it'⟩ := e
    by_cases hc : now - it'.lastAccess > stale ∨
        (kept.length + 1 + todo.length > cap ∧ it'.locks = 0)
    · simpa [mutexPurgeGo, hc] using ih kept hkept
    · simp only [mutexPurgeGo, hc, if_false]
      refine ih (kept ++ [(k', it')]) ?_
      intro e he
      rcases List.mem_append.1 he with h1 | h2
      · exact hkept e h1
      · have : e = (k', it') := by simpa using h2
        subst this
        intro hco
        exact hc (Or.inl hco)

/-- C1, counterexample.  The claim states that purge removes only entries
whose holder count is zero and never evicts a held entry.  In the code the
condition is `stale || (overSize && locks == 0)`, so a held entry that is
idle beyond the stale threshold is evicted: with the stale threshold 10,
an entry last accessed at 0 and examined at 11 is removed even though it
holds one lock (and the map, of size 1, is far below the cap 1024). -/
theorem c1_counterexample :
    ((⟨1, 0⟩ : MutexItem).locks ≠ 0) ∧
      mutexPurge [("k", ⟨1, 0⟩)] 11 10 1024 = [] := by
  constructor
  · decide
  · rfl

/-- C1 (amended): purge removes entries idle beyond the stale threshold
regardless of their holder count; only the size-cap branch is restricted
to unlocked entries, so a held entry survives purge exactly when it is
not stale. -/
theorem c1_purge_policy (items : List (String × MutexItem))
    (now stale : Int) (cap : Nat) (k : String) (it : MutexItem)
    (hmem : (k, it) ∈ items) :
    (it.locks ≠ 0 → ¬ now - it.lastAccess > stale →
      (k, it) ∈ mutexPurge items now stale cap) ∧
    (now - it.lastAccess > stale →
      (k, it) ∉ mutexPurge items now stale cap) := by
  constructor
  · intro hlock hfresh
    exact mutexPurgeGo_keeps_held_fresh now stale cap k it hlock hfresh
      items [] hmem
  · intro hstale
    exact mutexPurgeGo_drops_stale now stale cap k it hstale items []
      (by intro e he; cases he)

/-- Witness for `c1_purge_policy`: a held entry accessed at 20 and purged
at 11 (stale threshold 10) is retained; the twin stale conclusion holds
vacuously at this input. -/
theorem c1_purge_policy_witness :
    (((⟨1, 20⟩ : MutexItem).locks ≠ 0 → ¬ (11 : Int) - 20 > 10 →
        ("k", (⟨1, 20⟩ : MutexItem)) ∈
          mutexPurge [("k", ⟨1, 20⟩)] 11 10 1024) ∧
      ((11 : Int) - 20 > 10 →
        ("k", (⟨1, 20⟩ : MutexItem)) ∉
          mutexPurge [("k", ⟨1, 20⟩)] 11 10 1024)) :=
  c1_purge_policy [("k", ⟨1, 20⟩)] 11 10 1024 "k" ⟨1, 20⟩ (by decide)

/-! ## C3: cache.Set swallows the write-through error -/

/-- C3.  The claim (and the spec's intent) is that a `SaveSession` error
inside `cache.Set` is reported to the caller.  The source reads `if err :=
Persistence.SaveSession(id, session); err != nil { return nil }` followed
by `return nil` — a slip that makes the error check dead code — so `Set`
returns success even when the backend fails.  At a backend whose
`SaveSession` fails, `Set` reports `ok`, yet the `SaveSession` call was
made (and failed), and the insertion into the cache is kept (that part of
the claim holds). -/
theorem c3_set_error_swallowed :
    (cacheSet cfgFix 100
        { cache := [], backend := { backendFix with saveFails := true },
          timers := [] }
        { id := idA, user := none, created := 0, lastAccess := 0,
          lastIP := "", lastUserAgentHash := 0, referenceID := "",
          data := [] }).1 = Except.ok () ∧
    alookup (cacheSet cfgFix 100
        { cache := [], backend := { backendFix with saveFails := true },
          timers := [] }
        { id := idA, user := none, created := 0, lastAccess := 0,
          lastIP := "", lastUserAgentHash := 0, referenceID := "",
          data := [] }).2.1.cache idA =
      some { id := idA, user := none, created := 0, lastAccess := 100,
             lastIP := "", lastUserAgentHash := 0, referenceID := "",
             data := [] } ∧
    (cacheSet cfgFix 100
        { cache := [], backend := { backendFix with saveFails := true },
          timers := [] }
        { id := idA, user := none, created := 0, lastAccess := 0,
          lastIP := "", lastUserAgentHash := 0, referenceID := "",
          data := [] }).2.1.backend.saveLog =
      [(idA, { id := idA, user := none, created := 0, lastAccess := 100,
               lastIP := "", lastUserAgentHash := 0, referenceID := "",
               data := [] })] := by
  refine ⟨rfl, rfl, rfl⟩

/-! ## C5: write-through behaviour of the session data operations -/

/-- C5, counterexample.  The claim states that `getAndDelete` (like `set`
and `delete`) triggers a write-through `SaveSession` whose error
propagates.  At a session holding key `k` and a backend whose
`SaveSession` would fail, `GetAndDelete` removes the key (a mutation) yet
no `SaveSession` call is logged and no error is produced. -/
theorem c5_counterexample :
    (sessionGetAndDelete
        { id := idA, user := none, created := 0, lastAccess := 0,
          lastIP := "", lastUserAgentHash := 0, referenceID := "",
          data := [("k", Value.vNum 1)] } "k" Value.vNull
        { backendFix with saveFails := true }) =
      (Value.vNum 1,
       { id := idA, user := none, created := 0, lastAccess := 0,
         lastIP := "", lastUserAgentHash := 0, referenceID := "",
         data := [] },
       { backendFix with saveFails := true }) := rfl

/-- C5 (amended): `set(key, value)` and `delete(key)` trigger a
write-through `SaveSession` whose error propagates to the caller, while
`getAndDelete(key, default)` mutates the session data purely in memory:
it performs no `SaveSession` call (the backend state is unchanged) and
returns no error. -/
theorem c5_write_through (s : Session) (key : String)
    (value defV : Value) (b : BackendState) :
    ((sessionSet s key value b).1 =
      if b.saveFails then Except.error "save failed" else Except.ok ()) ∧
    ((sessionSet s key value b).2.2.saveLog =
      b.saveLog ++ [(s.id, { s with data := aput s.data key value })]) ∧
    ((sessionDelete s key b).1 =
      if b.saveFails then Except.error "save failed" else Except.ok ()) ∧
    ((sessionDelete s key b).2.2.saveLog =
      b.saveLog ++ [(s.id, { s with data := adel s.data key })]) ∧
    ((sessionGetAndDelete s key defV b).2.2 = b) := by
  refine ⟨?_, ?_, ?_, ?_, ?_⟩ <;>
    · simp only [sessionSet, sessionDelete, sessionGetAndDelete,
        saveSession]
      cases hb : b.saveFails <;>
        cases h : alookup s.data key <;> simp [hb, h]

/-! ## C6: codec version validation -/

/-- C6, counterexample.  The claim states that for both encodings a
payload whose version differs from 1 fails to decode.  Gob-decoding the
encoding of `sessFix` with its version item replaced by 2 succeeds and
returns the session. -/
theorem c6_counterexample :
    gobDecode [] (GobValue.gUInt8 2 :: (gobEncode sessFix).tail) =
      Except.ok sessFix := rfl

/-- C6 (amended): the JSON decoder rejects any version field other than 1
with a decode error, but the gob decoder reads the version byte without
validating it, so a gob payload carrying any version value decodes
successfully. -/
theorem c6_version_validation (users : List (String × User))
    (obj : List (String × JVal)) (n : Int) (s : Session) (m : Nat)
    (hv : alookup obj "v" = some (JVal.jNum n)) (hn : n ≠ 1)
    (hu : s.user = none) :
    jsonUnmarshal users obj = Except.error "Invalid version" ∧
    gobDecode users (GobValue.gUInt8 m :: (gobEncode s).tail) =
      Except.ok { s with id := "" } := by
  constructor
  · simp [jsonUnmarshal, hv, hn, Bind.bind, Except.bind, throw, throwThe,
      MonadExceptOf.throw, pure, Except.pure]
  · obtain ⟨id0, u0, c0, la0, ip0, h0, r0, d0⟩ := s
    simp only at hu
    subst hu
    simp [gobEncode, gobDecode, popUInt8, popTime, popStr, popUInt64,
      popBool, popUserID, popData, Bind.bind, Except.bind, pure,
      Except.pure]

/-- Witness for `c6_version_validation` at version 2 and `sessFix`. -/
theorem c6_version_validation_witness :
    jsonUnmarshal [] [("v", JVal.jNum 2)] =
        Except.error "Invalid version" ∧
      gobDecode [] (GobValue.gUInt8 2 :: (gobEncode sessFix).tail) =
        Except.ok { sessFix with id := "" } :=
  c6_version_validation [] [("v", JVal.jNum 2)] 2 sessFix 2 (by decide)
    (by decide) rfl

/-! ## C8: binary round trip -/

/-- C8.  For every primary session without an attached user, gob-decoding
the gob encoding restores all serialized fields: `created`, `lastAccess`,
`lastIP`, `lastUserAgentHash`, `referenceID` and `data`. -/
theorem c8_gob_roundtrip (users : List (String × User)) (s : Session)
    (href : s.referenceID = "") (hu : s.user = none) :
    ∃ s2, gobDecode users (gobEncode s) = Except.ok s2 ∧
      s2.created = s.created ∧ s2.lastAccess = s.lastAccess ∧
      s2.lastIP = s.lastIP ∧
      s2.lastUserAgentHash = s.lastUserAgentHash ∧
      s2.referenceID = s.referenceID ∧ s2.data = s.data := by
  refine ⟨{ s with id := "" }, ?_, rfl, rfl, rfl, rfl, rfl, rfl⟩
  obtain ⟨id0, u0, c0, la0, ip0, h0, r0, d0⟩ := s
  simp only at hu href
  subst hu
  simp [gobEncode, gobDecode, popUInt8, popTime, popStr, popUInt64,
    popBool, popUserID, popData, Bind.bind, Except.bind, pure,
    Except.pure]

/-! ## C7: the remote-IP prefix check -/

/-- C7.  With `acceptRemoteIPBytes = k ∈ [1..4]`: when both the stored
and the current remote address match the IPv4 pattern, the check
invalidates the session exactly when one of the first `k - 1` octets
(submatch indices `1` to `k - 1`) differs; `k = 1` accepts all changes;
and when either address fails to parse the check is skipped and causes no
invalidation. -/
theorem c7_ip_prefix_check (k : Int) (prev cur : String)
    (h1 : 1 ≤ k) (h4 : k ≤ 4) :
    (∀ pl cl, ipParse prev = some pl → ipParse cur = some cl →
      (remoteIPValid k prev cur = false ↔
        ∃ i : Nat, 1 ≤ i ∧ (i : Int) < k ∧
          pl.getD i "" ≠ cl.getD i "")) ∧
    (k = 1 → remoteIPValid k prev cur = true) ∧
    ((ipParse prev = none ∨ ipParse cur = none) →
      remoteIPValid k prev cur = true) := by
  refine ⟨?_, ?_, ?_⟩
  · intro pl cl hp hc
    rcases (by omega : k > 1 ∨ k = 1) with hk | hk
    · simp only [remoteIPValid, if_pos hk, hp, hc, if_pos h4]
      constructor
      · intro h
        have h2 : ((List.range' 1 (k - 1).toNat).any fun i =>
            pl.getD i "" != cl.getD i "") = true := by
          simpa using h
        rcases List.any_eq_true.1 h2 with ⟨i, hi, hne⟩
        have hmem := List.mem_range'_1.1 hi
        exact ⟨i, hmem.1, by omega, by simpa using hne⟩
      · rintro ⟨i, hi1, hik, hne⟩
        have h2 : ((List.range' 1 (k - 1).toNat).any fun i =>
            pl.getD i "" != cl.getD i "") = true :=
          List.any_eq_true.2
            ⟨i, List.mem_range'_1.2 ⟨hi1, by omega⟩, by simpa using hne⟩
        simpa using h2
    · subst hk
      rw [show remoteIPValid 1 prev cur = true by simp [remoteIPValid]]
      constructor
      · intro h; simp at h
      · rintro ⟨i, hi1, hik, _⟩; omega
  · intro hk
    subst hk
    simp [remoteIPValid]
  · intro h
    rcases (by omega : k > 1 ∨ k = 1) with hk | hk
    · cases hx : ipParse prev with
      | none => simp [remoteIPValid, if_pos hk, hx]
      | some pl =>
        rcases h with hp | hc
        · rw [hx] at hp; cases hp
        · simp [remoteIPValid, if_pos hk, hx, hc]
    · subst hk
      simp [remoteIPValid]

/-- Witness for `c7_ip_prefix_check` at `k = 3` with the addresses of the
repository's own IP tests: `192.168.178.1:80` against
`192.100.100.50:8080` differs in the second octet, so the check
invalidates (the existential is realised at index 2). -/
theorem c7_ip_prefix_check_witness :
    (∀ pl cl, ipParse "192.168.178.1:80" = some pl →
      ipParse "192.100.100.50:8080" = some cl →
      (remoteIPValid 3 "192.168.178.1:80" "192.100.100.50:8080" = false ↔
        ∃ i : Nat, 1 ≤ i ∧ (i : Int) < 3 ∧
          pl.getD i "" ≠ cl.getD i "")) ∧
    ((3 : Int) = 1 →
      remoteIPValid 3 "192.168.178.1:80" "192.100.100.50:8080" = true) ∧
    ((ipParse "192.168.178.1:80" = none ∨
        ipParse "192.100.100.50:8080" = none) →
      remoteIPValid 3 "192.168.178.1:80" "192.100.100.50:8080" = true) :=
  c7_ip_prefix_check 3 "192.168.178.1:80" "192.100.100.50:8080"
    (by norm_num) (by norm_num)

/-- Witness for `c8_gob_roundtrip` at `sessFix`. -/
theorem c8_gob_roundtrip_witness :
    ∃ s2, gobDecode [] (gobEncode sessFix) = Except.ok s2 ∧
      s2.created = sessFix.created ∧ s2.lastAccess = sessFix.lastAccess ∧
      s2.lastIP = sessFix.lastIP ∧
      s2.lastUserAgentHash = sessFix.lastUserAgentHash ∧
      s2.referenceID = sessFix.referenceID ∧ s2.data = sessFix.data :=
  c8_gob_roundtrip [] sessFix rfl rfl

/-! ## Cache lemmas for stable worlds -/

lemma compactPass1_fresh (cfg : Config) (now : Int) :
    ∀ (todo kept : List (String × Session)) (b : BackendState),
      (∀ p ∈ todo,
        now - (Prod.snd p).lastAccess ≤ cfg.sessionCacheExpiry) →
      compactPass1 cfg now kept todo b = (kept ++ todo, b, .ok ()) := by
  intro todo
  induction todo with
  | nil => intro kept b _; simp [compactPass1]
  | cons p rest ih =>
    intro kept b hfr
    obtain ⟨id, s⟩ := p
    have hs := hfr (id, s) (List.mem_cons_self _ _)
    have hcond : ¬ now - s.lastAccess > cfg.sessionCacheExpiry :=
      not_lt.2 hs
    simp only [compactPass1, if_neg hcond]
    rw [ih (kept ++ [(id, s)]) b
      (fun q hq => hfr q (List.mem_cons_of_mem _ hq))]
    simp

lemma compact_stable (cfg : Config) (now : Int) (w : World)
    (hmax : cfg.maxSessionCacheSize < 0)
    (hfr : ∀ p ∈ w.cache,
      now - (Prod.snd p).lastAccess ≤ cfg.sessionCacheExpiry) :
    ∀ rs, compact cfg now w rs = (w, .ok ()) := by
  intro rs
  simp only [compact, compactPass1_fresh cfg now w.cache [] w.backend hfr]
  simp [hmax]

lemma cacheSet_stable (cfg : Config) (now : Int) (w : World) (s : Session)
    (hmax : cfg.maxSessionCacheSize < 0)
    (hsave : w.backend.saveFails = false)
    (hfr : ∀ p ∈ w.cache,
      now - (Prod.snd p).lastAccess ≤ cfg.sessionCacheExpiry) :
    cacheSet cfg now w s =
      (.ok (),
       { cache := aput w.cache s.id { s with lastAccess := now },
         backend := { w.backend with
           table := aput w.backend.table s.id { s with lastAccess := now }
           saveLog := w.backend.saveLog ++
             [(s.id, { s with lastAccess := now })] },
         timers := w.timers },
       { s with lastAccess := now }) := by
  have hne : cfg.maxSessionCacheSize ≠ 0 := by omega
  simp [cacheSet, compact_stable cfg now w hmax hfr, hne, saveSession,
    hsave]

lemma cacheGet_hit (cfg : Config) (now : Int) (w : World) (id : String)
    (s : Session) (h : alookup w.cache id = some s) :
    cacheGet cfg now w id = (.ok (some s), w) := by
  simp [cacheGet, h]

lemma cacheGet_none (cfg : Config) (now : Int) (w : World) (id : String)
    (h1 : alookup w.cache id = none)
    (h2 : alookup w.backend.table id = none) :
    cacheGet cfg now w id = (.ok none, w) := by
  simp [cacheGet, loadSession, h1, h2]

lemma cacheGet_load (cfg : Config) (now : Int) (w : World) (id : String)
    (s : Session) (hmax : cfg.maxSessionCacheSize < 0)
    (h1 : alookup w.cache id = none)
    (h2 : alookup w.backend.table id = some s)
    (hfr : ∀ p ∈ w.cache,
      now - (Prod.snd p).lastAccess ≤ cfg.sessionCacheExpiry) :
    cacheGet cfg now w id =
      (.ok (some { s with id := id }),
       { w with cache := aput w.cache id { s with id := id } }) := by
  have hne : cfg.maxSessionCacheSize ≠ 0 := by omega
  simp [cacheGet, loadSession, h1, h2, hne,
    compact_stable cfg now w hmax hfr]

/-- The step-3 checks pass when the session is not stale, the IP policy
is disabled (`AcceptRemoteIP <= 1`) and user-agent changes are
accepted. -/
lemma startValid_skip (cfg : Config) (now : Int) (s : Session)
    (req : Request) (agentHash : Nat)
    (hfresh : now - s.lastAccess < cfg.sessionExpiry)
    (hip : ¬ cfg.acceptRemoteIP > 1)
    (hua : cfg.acceptChangingUserAgent = true) :
    startValid cfg now s req agentHash = true := by
  simp [startValid, remoteIPValid, hip, hua, not_le.2 hfresh]

/-! ## C2: the grace-expired branch of `Start` -/

/-- C2, counterexample.  The claim states that a primary session
(`referenceID == ""`) whose age reaches `idRotationInterval +
gracePeriod` is deleted with an `Expired` error.  In the source the
rotation branch `referenceID == "" && age >= SessionIDExpiry` catches
every such primary first, so `Start` rotates it: at `sessOld` (created
50, age 50 at instant 100, intervals 10 + 5) `Start` returns a rotated
session and not the `Session expired` error. -/
theorem c2_counterexample :
    (start cfgFix 100
        { cache := [(idA, sessOld)], backend := backendFix, timers := [] }
        { cookie := some idA, userAgent := "", remoteAddr := "1.2.3.4:5" }
        false idF).1 =
      Except.ok (some { id := idF, user := none, created := 100,
                        lastAccess := 100, lastIP := "1.2.3.4:5",
                        lastUserAgentHash := 0, referenceID := "",
                        data := [] }) ∧
    (start cfgFix 100
        { cache := [(idA, sessOld)], backend := backendFix, timers := [] }
        { cookie := some idA, userAgent := "", remoteAddr := "1.2.3.4:5" }
        false idF).1 ≠ Except.error "Session expired" := by
  refine ⟨rfl, ?_⟩
  intro h
  rw [show (start cfgFix 100
      { cache := [(idA, sessOld)], backend := backendFix, timers := [] }
      { cookie := some idA, userAgent := "", remoteAddr := "1.2.3.4:5" }
      false idF).1 =
    Except.ok (some { id := idF, user := none, created := 100,
                      lastAccess := 100, lastIP := "1.2.3.4:5",
                      lastUserAgentHash := 0, referenceID := "",
                      data := [] }) from rfl] at h
  exact Except.noConfusion h

/-- C2 (amended).  The grace-expired failure of `Start` applies to shadow
sessions: when the fetched session has a non-empty `referenceID` and its
age since `created` is at least `idRotationInterval + gracePeriod`
(passing the step-3 checks), `Start` deletes it from the cache (and the
persistence layer) and fails with the `Session expired` error, emitting
no cookie, so the client's cookie is left unchanged.  A primary session
of that age is rotated instead (see the counterexample). -/
theorem c2_shadow_grace_expiry (cfg : Config) (now : Int)
    (c : List (String × Session)) (b : BackendState)
    (t : List (Int × String)) (A ua ra freshID : String)
    (createIfNew : Bool) (sA : Session)
    (hlen : A.length = 24)
    (hlook : alookup c A = some sA)
    (hnd : (c.map Prod.fst).Nodup)
    (href : sA.referenceID ≠ "")
    (hfresh : now - sA.lastAccess < cfg.sessionExpiry)
    (hip : ¬ cfg.acceptRemoteIP > 1)
    (hua : cfg.acceptChangingUserAgent = true)
    (hage : now - sA.created ≥
      cfg.sessionIDExpiry + cfg.sessionIDGracePeriod) :
    start cfg now { cache := c, backend := b, timers := t }
        { cookie := some A, userAgent := ua, remoteAddr := ra }
        createIfNew freshID =
      (.error "Session expired",
       { cache := adel c A,
         backend := { b with
           table := adel b.table A
           deleteLog := b.deleteLog ++ [A] },
         timers := t }, []) ∧
    alookup (adel c A) A = none := by
  have hv := startValid_skip cfg now sA
    { cookie := some A, userAgent := ua, remoteAddr := ra }
    (if ua ≠ "" then fnv1a64 ua else 0) hfresh hip hua
  constructor
  · have hget := cacheGet_hit cfg now
      { cache := c, backend := b, timers := t } A sA hlook
    simp only [start, Option.getD_some, if_pos hlen, hget, hv,
      Bool.true_eq_false, if_false, href, false_and, if_pos hage,
      cacheDelete, deleteSession]
  · exact alookup_adel_self c A hnd

/-- Witness for `c2_shadow_grace_expiry` at `sessShadow` (age 15, the
rotation interval 10 plus the grace period 5). -/
theorem c2_shadow_grace_expiry_witness :
    start cfgFix 100
        { cache := [(idA, sessShadow)], backend := backendFix,
          timers := [] }
        { cookie := some idA, userAgent := "", remoteAddr := "1.2.3.4:5" }
        false idF =
      (.error "Session expired",
       { cache := adel [(idA, sessShadow)] idA,
         backend := { backendFix with
           table := adel backendFix.table idA
           deleteLog := backendFix.deleteLog ++ [idA] },
         timers := [] }, []) ∧
    alookup (adel [(idA, sessShadow)] idA) idA = none :=
  c2_shadow_grace_expiry cfgFix 100 [(idA, sessShadow)] backendFix []
    idA "" "1.2.3.4:5" idF false sessShadow (by decide) rfl (by decide)
    (by decide) (by decide) (by decide) rfl (by decide)

/-! ## C4: the stored shadow session after `RegenerateID` -/

/-- C4 (amended).  After `regenerateID` on a session stored under `k`,
the session stored under `k` is a shadow whose `referenceID` is the
freshly generated identifier, but whose `created` equals the rotation
instant `now` (the source resets `s.created = now` before copying it into
the shadow, so the old creation time is not inherited) and whose stored
`lastAccess` equals `now` (the `now - idRotationInterval` value assigned
at construction is overwritten by `cache.Set`, which stamps
`lastAccess = now`). -/
theorem c4_regenerated_shadow (cfg : Config) (now : Int) (w : World)
    (s : Session) (freshID : String)
    (hmax : cfg.maxSessionCacheSize < 0)
    (hexp : 0 ≤ cfg.sessionCacheExpiry)
    (hsave : w.backend.saveFails = false)
    (hfr : ∀ p ∈ w.cache,
      now - (Prod.snd p).lastAccess ≤ cfg.sessionCacheExpiry) :
    ∃ w', regenerateID cfg now w s freshID =
        (.ok (), w',
         { s with id := freshID, created := now, lastAccess := now },
         [(cfg.sessionCookie, freshID)]) ∧
      alookup w'.cache s.id =
        some { id := s.id, user := none, created := now,
               lastAccess := now, lastIP := s.lastIP,
               lastUserAgentHash := s.lastUserAgentHash,
               referenceID := freshID, data := [] } ∧
      alookup w'.backend.table s.id =
        some { id := s.id, user := none, created := now,
               lastAccess := now, lastIP := s.lastIP,
               lastUserAgentHash := s.lastUserAgentHash,
               referenceID := freshID, data := [] } := by
  have h1 := cacheSet_stable cfg now w
    { s with id := freshID, created := now } hmax hsave hfr
  simp only [regenerateID, h1]
  have hfr1 : ∀ p ∈ aput w.cache freshID
      { s with id := freshID, created := now, lastAccess := now },
      now - (Prod.snd p).lastAccess ≤ cfg.sessionCacheExpiry := by
    intro p hp
    rcases mem_aput _ _ _ p hp with h | h
    · exact hfr p h
    · rw [h]; simpa using hexp
  have h2 := cacheSet_stable cfg now
    { cache := aput w.cache freshID
        { s with id := freshID, created := now, lastAccess := now },
      backend := { w.backend with
        table := aput w.backend.table freshID
          { s with id := freshID, created := now, lastAccess := now }
        saveLog := w.backend.saveLog ++
          [(freshID,
            { s with id := freshID, created := now, lastAccess := now })] },
      timers := w.timers }
    { id := s.id, user := none, created := now,
      lastAccess := now - cfg.sessionIDExpiry, lastIP := s.lastIP,
      lastUserAgentHash := s.lastUserAgentHash, referenceID := freshID,
      data := [] } hmax hsave hfr1
  simp only [h2]
  refine ⟨_, rfl, ?_, ?_⟩
  · rw [alookup_aput_self]
  · rw [alookup_aput_self]

/-- C4, counterexample.  Rotating `sessOld` (created at 50) at instant
100 with rotation interval 10 stores under the old identifier a shadow
whose `created` is 100 (not the inherited 50) and whose `lastAccess` is
100 (not `100 - 10 = 90`), refuting the claim's `created` and
`lastAccess` conjuncts. -/
theorem c4_counterexample :
    ∃ ref,
      alookup (regenerateID cfgFix 100
          { cache := [(idA, sessOld)], backend := backendFix,
            timers := [] } sessOld idF).2.1.cache idA = some ref ∧
      ref.referenceID = idF ∧
      ref.created = 100 ∧ sessOld.created = 50 ∧
      ref.created ≠ sessOld.created ∧
      ref.lastAccess = 100 ∧ 100 - cfgFix.sessionIDExpiry = 90 ∧
      ref.lastAccess ≠ 100 - cfgFix.sessionIDExpiry := by
  refine ⟨{ id := idA, user := none, created := 100, lastAccess := 100,
            lastIP := "", lastUserAgentHash := 0, referenceID := idF,
            data := [] }, ?_, rfl, rfl, rfl, by decide, rfl, by decide,
          by decide⟩
  rfl

/-- Witness for `c4_regenerated_shadow` at `sessOld` in a singleton
world. -/
theorem c4_regenerated_shadow_witness :
    ∃ w', regenerateID cfgFix 100
        { cache := [(idA, sessOld)], backend := backendFix, timers := [] }
        sessOld idF =
        (.ok (), w',
         { sessOld with id := idF, created := 100, lastAccess := 100 },
         [(cfgFix.sessionCookie, idF)]) ∧
      alookup w'.cache sessOld.id =
        some { id := sessOld.id, user := none, created := 100,
               lastAccess := 100, lastIP := sessOld.lastIP,
               lastUserAgentHash := sessOld.lastUserAgentHash,
               referenceID := idF, data := [] } ∧
      alookup w'.backend.table sessOld.id =
        some { id := sessOld.id, user := none, created := 100,
               lastAccess := 100, lastIP := sessOld.lastIP,
               lastUserAgentHash := sessOld.lastUserAgentHash,
               referenceID := idF, data := [] } :=
  c4_regenerated_shadow cfgFix 100
    { cache := [(idA, sessOld)], backend := backendFix, timers := [] }
    sessOld idF (by decide) (by decide) rfl
    (by intro p hp
        simp only [List.mem_singleton] at hp
        subst hp
        decide)

/-! ## C10: the shadow follow is single-hop -/

/-- C10.  When the fetched session under `A` is a shadow pointing at `B`
and the session under `B` is itself a shadow (non-empty `referenceID`),
`Start` emits a cookie carrying `A`'s `referenceID`, fetches the session
under it, touches it and returns it without checking whether it is a
shadow: the returned session has a non-empty `referenceID`. -/
theorem c10_single_hop_shadow_follow (cfg : Config) (now : Int)
    (b : BackendState) (t : List (Int × String))
    (A B ua ra freshID : String) (createIfNew : Bool) (sA sB : Session)
    (hlen : A.length = 24)
    (hAB : A ≠ B)
    (hrefA : sA.referenceID = B)
    (hBne : B ≠ "")
    (hrefB : sB.referenceID ≠ "")
    (hfresh : now - sA.lastAccess < cfg.sessionExpiry)
    (hip : ¬ cfg.acceptRemoteIP > 1)
    (hua : cfg.acceptChangingUserAgent = true)
    (hage : now - sA.created <
      cfg.sessionIDExpiry + cfg.sessionIDGracePeriod) :
    ∃ sT w', start cfg now
        { cache := [(A, sA), (B, sB)], backend := b, timers := t }
        { cookie := some A, userAgent := ua, remoteAddr := ra }
        createIfNew freshID =
      (.ok (some sT), w', [(cfg.sessionCookie, sA.referenceID)]) ∧
      sT.referenceID = sB.referenceID ∧ sT.referenceID ≠ "" ∧
      sT.lastAccess = now ∧ sT.lastIP = ra := by
  have hv := startValid_skip cfg now sA
    { cookie := some A, userAgent := ua, remoteAddr := ra }
    (if ua ≠ "" then fnv1a64 ua else 0) hfresh hip hua
  have hgetA := cacheGet_hit cfg now
    { cache := [(A, sA), (B, sB)], backend := b, timers := t } A sA
    (by simp [alookup])
  have hlookB : alookup [(A, sA), (B, sB)] B = some sB := by
    simp [alookup, hAB]
  have hgetB := cacheGet_hit cfg now
    { cache := [(A, sA), (B, sB)], backend := b, timers := t } B sB
    hlookB
  simp only [start, Option.getD_some, if_pos hlen, hgetA, hv,
    Bool.true_eq_false, if_false, hrefA, hBne, false_and,
    not_le.2 hage, startFollow, if_true, hgetB, startTouch, hlookB,
    Option.isSome_some, if_pos, if_pos hBne, List.nil_append]
  exact ⟨{ sB with
      lastAccess := now
      lastIP := ra
      lastUserAgentHash := if ua ≠ "" then fnv1a64 ua else 0 },
    { cache := aput [(A, sA), (B, sB)] B
        { sB with
          lastAccess := now
          lastIP := ra
          lastUserAgentHash := if ua ≠ "" then fnv1a64 ua else 0 },
      backend := b, timers := t }, rfl, rfl, hrefB, rfl, rfl⟩

/-- Witness for `c10_single_hop_shadow_follow`: `sessShadowFresh` under
`idA` points at `idB`, where `sessShadowB` is itself a shadow pointing at
`idF`; `Start` returns `sessShadowB` touched, still carrying its
`referenceID`. -/
theorem c10_single_hop_shadow_follow_witness :
    ∃ sT w', start cfgFix 100
        { cache := [(idA, sessShadowFresh), (idB, sessShadowB)],
          backend := backendFix, timers := [] }
        { cookie := some idA, userAgent := "", remoteAddr := "1.2.3.4:5" }
        false idF =
      (.ok (some sT), w',
       [(cfgFix.sessionCookie, sessShadowFresh.referenceID)]) ∧
      sT.referenceID = sessShadowB.referenceID ∧ sT.referenceID ≠ "" ∧
      sT.lastAccess = 100 ∧ sT.lastIP = "1.2.3.4:5" :=
  c10_single_hop_shadow_follow cfgFix 100 backendFix [] idA idB ""
    "1.2.3.4:5" idF false sessShadowFresh sessShadowB (by decide)
    (by decide) rfl (by decide) (by decide) (by decide) (by decide) rfl
    (by decide)


lemma alookup_mem {α : Type} (l : List (String × α)) (k : String) (v : α)
    (h : alookup l k = some v) : (k, v) ∈ l := by
  induction l with
  | nil => simp [alookup] at h
  | cons p rest ih =>
    obtain ⟨k', v'⟩ := p
    by_cases h2 : k' = k
    · subst h2
      have hv : v' = v := by simpa [alookup] using h
      subst hv
      exact List.mem_cons_self _ _
    · simp only [alookup, if_neg h2] at h
      exact List.mem_cons_of_mem _ (ih h)

lemma stableWorld_aput (cfg : Config) (now : Int) (w : World)
    (id : String) (s' : Session) (log : List (String × Session))
    (hst : stableWorld cfg now w) (hid : s'.id = id)
    (hla : s'.lastAccess = now) :
    stableWorld cfg now
      { cache := aput w.cache id s',
        backend := { w.backend with
          table := aput w.backend.table id s'
          saveLog := log },
        timers := w.timers } := by
  obtain ⟨hmax, hexp, hsave, hwfc, hwft, hfc, hft⟩ := hst
  refine ⟨hmax, hexp, hsave, ?_, ?_, ?_, ?_⟩
  · intro p hp
    rcases mem_aput _ _ _ p hp with h | h
    · exact hwfc p h
    · rw [h]; simpa using hid
  · intro p hp
    rcases mem_aput _ _ _ p hp with h | h
    · exact hwft p h
    · rw [h]; simpa using hid
  · intro p hp
    rcases mem_aput _ _ _ p hp with h | h
    · exact hfc p h
    · rw [h]; simp [hla]; omega
  · intro p hp
    rcases mem_aput _ _ _ p hp with h | h
    · exact hft p h
    · rw [h]; simp [hla]; omega

lemma resolves_aput_self (w : World) (id : String) (s' : Session)
    (log : List (String × Session)) :
    resolves
      { cache := aput w.cache id s',
        backend := { w.backend with
          table := aput w.backend.table id s'
          saveLog := log },
        timers := w.timers } id = true := by
  simp [resolves, alookup_aput_self]

lemma resolves_aput_ne (w : World) (id j : String) (s' : Session)
    (log : List (String × Session)) (hne : j ≠ id) :
    resolves
      { cache := aput w.cache id s',
        backend := { w.backend with
          table := aput w.backend.table id s'
          saveLog := log },
        timers := w.timers } j = resolves w j := by
  simp [resolves, alookup_aput_ne _ _ _ _ hne]

lemma goodAt_aput_self (now : Int) (w : World) (id : String)
    (s' : Session) (log : List (String × Session)) (u : Option User)
    (hu : s'.user = u) (hla : s'.lastAccess = now) (hid : s'.id = id) :
    goodAt now
      { cache := aput w.cache id s',
        backend := { w.backend with
          table := aput w.backend.table id s'
          saveLog := log },
        timers := w.timers } id u :=
  ⟨s', by simpa using alookup_aput_self w.cache id s',
    by simpa using alookup_aput_self w.backend.table id s', hu, hla, hid⟩

lemma goodAt_aput_ne (now : Int) (w : World) (id j : String)
    (s' : Session) (log : List (String × Session)) (u0 : Option User)
    (hne : j ≠ id) (hg : goodAt now w j u0) :
    goodAt now
      { cache := aput w.cache id s',
        backend := { w.backend with
          table := aput w.backend.table id s'
          saveLog := log },
        timers := w.timers } j u0 := by
  obtain ⟨s, hc, ht, hu, hla, hid⟩ := hg
  exact ⟨s, by simpa [alookup_aput_ne _ _ _ _ hne] using hc,
    by simpa [alookup_aput_ne _ _ _ _ hne] using ht, hu, hla, hid⟩

lemma reassignStep (cfg : Config) (now : Int) (u : Option User)
    (id : String) (rest : List String) (w : World)
    (hst : stableWorld cfg now w)
    (hres : resolves w id = true) :
    ∃ s', reassignLoop cfg now u (id :: rest) w =
        reassignLoop cfg now u rest
          { cache := aput w.cache id s',
            backend := { w.backend with
              table := aput w.backend.table id s'
              saveLog := w.backend.saveLog ++ [(id, s')] },
            timers := w.timers } ∧
      s'.user = u ∧ s'.lastAccess = now ∧ s'.id = id := by
  obtain ⟨hmax, hexp, hsave, hwfc, hwft, hfc, hft⟩ := hst
  cases hlc : alookup w.cache id with
  | some s0 =>
    have hid : s0.id = id := hwfc (id, s0) (alookup_mem _ _ _ hlc)
    have hget := cacheGet_hit cfg now w id s0 hlc
    have hset := cacheSet_stable cfg now w { s0 with user := u } hmax
      hsave hfc
    refine ⟨{ s0 with user := u, lastAccess := now }, ?_, rfl, rfl,
      by simpa using hid⟩
    simp only [reassignLoop, hget, hset]
    simp [hid]
  | none =>
    have hlt : ∃ s0, alookup w.backend.table id = some s0 := by
      cases hlt : alookup w.backend.table id with
      | some s0 => exact ⟨s0, rfl⟩
      | none => simp [resolves, hlc, hlt] at hres
    obtain ⟨s0, hlt⟩ := hlt
    have hget := cacheGet_load cfg now w id s0 hmax hlc hlt hfc
    have hfr1 : ∀ p ∈ aput w.cache id { s0 with id := id },
        now - (Prod.snd p).lastAccess ≤ cfg.sessionCacheExpiry := by
      intro p hp
      rcases mem_aput _ _ _ p hp with h | h
      · exact hfc p h
      · rw [h]
        simpa using hft (id, s0) (alookup_mem _ _ _ hlt)
    have hset := cacheSet_stable cfg now
      { cache := aput w.cache id { s0 with id := id },
        backend := w.backend, timers := w.timers }
      { s0 with id := id, user := u } hmax hsave hfr1
    refine ⟨{ s0 with id := id, user := u, lastAccess := now }, ?_, rfl,
      rfl, rfl⟩
    simp only [reassignLoop, hget, hset]
    simp [aput_aput]


lemma reassignStepP (cfg : Config) (now : Int) (u : Option User)
    (id : String) (rest : List String) (w : World)
    (hst : stableWorld cfg now w)
    (hres : resolves w id = true) :
    ∃ w1, reassignLoop cfg now u (id :: rest) w =
        reassignLoop cfg now u rest w1 ∧
      stableWorld cfg now w1 ∧ goodAt now w1 id u ∧
      (∀ j, j ≠ id → resolves w1 j = resolves w j) ∧
      (∀ j u0, j ≠ id → goodAt now w j u0 → goodAt now w1 j u0) := by
  obtain ⟨s', hstep, hu, hla, hid⟩ :=
    reassignStep cfg now u id rest w hst hres
  exact ⟨_, hstep,
    stableWorld_aput cfg now w id s' _ hst hid hla,
    goodAt_aput_self now w id s' _ u hu hla hid,
    fun j hj => resolves_aput_ne w id j s' _ hj,
    fun j u0 hj hg => goodAt_aput_ne now w id j s' _ u0 hj hg⟩

lemma reassignLoop_fault_head (cfg : Config) (now : Int)
    (u : Option User) (id : String) (rest : List String) (w : World)
    (hres : resolves w id = false) :
    reassignLoop cfg now u (id :: rest) w = .nilDeref := by
  have h1 : alookup w.cache id = none := by
    cases h : alookup w.cache id with
    | none => rfl
    | some s => simp [resolves, h] at hres
  have h2 : alookup w.backend.table id = none := by
    cases h : alookup w.backend.table id with
    | none => rfl
    | some s => simp [resolves, h1, h] at hres
  simp only [reassignLoop, cacheGet_none cfg now w id h1 h2]

lemma reassignLoop_ok (cfg : Config) (now : Int) (u : Option User) :
    ∀ (ids : List String) (w : World), stableWorld cfg now w →
      (∀ id ∈ ids, resolves w id = true) →
      ∃ w', reassignLoop cfg now u ids w = .ok w' ∧
        (∀ id ∈ ids, goodAt now w' id u) ∧
        (∀ j u0, j ∉ ids → goodAt now w j u0 → goodAt now w' j u0) := by
  intro ids
  induction ids with
  | nil =>
    intro w _ _
    exact ⟨w, rfl, by simp, fun j u0 _ hg => hg⟩
  | cons id rest ih =>
    intro w hst hres
    obtain ⟨w1, hstep, hst1, hgood1, hres1, hpres1⟩ :=
      reassignStepP cfg now u id rest w hst
        (hres id (List.mem_cons_self _ _))
    have hresR : ∀ k ∈ rest, resolves w1 k = true := by
      intro k hk
      by_cases hkid : k = id
      · subst hkid
        obtain ⟨s, hc, _, _, _, _⟩ := hgood1
        simp [resolves, hc]
      · rw [hres1 k hkid]
        exact hres k (List.mem_cons_of_mem _ hk)
    obtain ⟨w', hloop, hgood, hstab⟩ := ih w1 hst1 hresR
    refine ⟨w', by rw [hstep, hloop], ?_, ?_⟩
    · intro k hk
      rcases List.mem_cons.1 hk with hk1 | hk2
      · subst hk1
        by_cases hmem : k ∈ rest
        · exact hgood k hmem
        · exact hstab k u hmem hgood1
      · exact hgood k hk2
    · intro j u0 hj hg
      have hj1 : j ≠ id := fun h => hj (h ▸ List.mem_cons_self _ _)
      have hj2 : j ∉ rest := fun h => hj (List.mem_cons_of_mem _ h)
      exact hstab j u0 hj2 (hpres1 j u0 hj1 hg)

lemma reassignLoop_fault (cfg : Config) (now : Int) (u : Option User) :
    ∀ (ids : List String) (w : World), stableWorld cfg now w →
      (∃ id ∈ ids, resolves w id = false) →
      reassignLoop cfg now u ids w = .nilDeref := by
  intro ids
  induction ids with
  | nil => intro w _ h; simp at h
  | cons id rest ih =>
    intro w hst h
    by_cases hr : resolves w id = true
    · obtain ⟨w1, hstep, hst1, hgood1, hres1, _⟩ :=
        reassignStepP cfg now u id rest w hst hr
      obtain ⟨id0, hid0, hres0⟩ := h
      have hid0r : id0 ∈ rest := by
        rcases List.mem_cons.1 hid0 with h1 | h2
        · subst h1; rw [hr] at hres0; cases hres0
        · exact h2
      have hne : id0 ≠ id := by
        intro h1; subst h1; rw [hr] at hres0; cases hres0
      rw [hstep]
      exact ih w1 hst1 ⟨id0, hid0r, by rw [hres1 id0 hne]; exact hres0⟩
    · have hr2 : resolves w id = false := by
        cases h2 : resolves w id with
        | true => exact absurd h2 hr
        | false => rfl
      exact reassignLoop_fault_head cfg now u id rest w hr2


/-! ## C9: LogOut and RefreshUser over the listed sessions -/

/-- C9.  `LogOut(userID)` and `RefreshUser(user)` complete without fault
exactly under the precondition that every session ID returned by
`UserSessions` resolves, via the cache or persistence, to a session:
under it they clear (respectively replace) the user on each listed
session and persist each one, while a listed ID that resolves to no
session leads to a nil-session dereference (`session.Lock()` on nil), not
a returned error. -/
theorem c9_userops (cfg : Config) (now : Int) (w : World) (uid : String)
    (user : User) (ids : List String)
    (hst : stableWorld cfg now w)
    (hids : w.backend.userSessionsList = some ids) :
    ((∀ id ∈ ids, resolves w id = true) →
      (∃ w', logOut cfg now w uid = .ok w' ∧
        ∀ id ∈ ids, ∃ s, alookup w'.backend.table id = some s ∧
          s.user = none) ∧
      (∃ w', refreshUser cfg now w user = .ok w' ∧
        ∀ id ∈ ids, ∃ s, alookup w'.backend.table id = some s ∧
          s.user = some user)) ∧
    ((∃ id ∈ ids, resolves w id = false) →
      logOut cfg now w uid = .nilDeref ∧
      refreshUser cfg now w user = .nilDeref) := by
  constructor
  · intro hall
    constructor
    · obtain ⟨w', hloop, hgood, _⟩ :=
        reassignLoop_ok cfg now none ids w hst hall
      refine ⟨w', by simp [logOut, hids, hloop], ?_⟩
      intro id hid
      obtain ⟨s, _, ht, hu, _, _⟩ := hgood id hid
      exact ⟨s, ht, hu⟩
    · obtain ⟨w', hloop, hgood, _⟩ :=
        reassignLoop_ok cfg now (some user) ids w hst hall
      refine ⟨w', by simp [refreshUser, hids, hloop], ?_⟩
      intro id hid
      obtain ⟨s, _, ht, hu, _, _⟩ := hgood id hid
      exact ⟨s, ht, hu⟩
  · intro hex
    constructor
    · simp [logOut, hids, reassignLoop_fault cfg now none ids w hst hex]
    · simp [refreshUser, hids,
        reassignLoop_fault cfg now (some user) ids w hst hex]

/-- Witness for `c9_userops` at `worldU` (one cached and one persisted
session of `userFix`, both listed by `UserSessions`). -/
theorem c9_userops_witness :
    ((∀ id ∈ [idA, idB], resolves worldU id = true) →
      (∃ w', logOut cfgFix 100 worldU "u1" = .ok w' ∧
        ∀ id ∈ [idA, idB], ∃ s,
          alookup w'.backend.table id = some s ∧ s.user = none) ∧
      (∃ w', refreshUser cfgFix 100 worldU userFix = .ok w' ∧
        ∀ id ∈ [idA, idB], ∃ s,
          alookup w'.backend.table id = some s ∧
            s.user = some userFix)) ∧
    ((∃ id ∈ [idA, idB], resolves worldU id = false) →
      logOut cfgFix 100 worldU "u1" = .nilDeref ∧
      refreshUser cfgFix 100 worldU userFix = .nilDeref) :=
  c9_userops cfgFix 100 worldU "u1" userFix [idA, idB]
    (by constructor
        · decide
        · constructor
          · decide
          · constructor
            · rfl
            · exact ⟨by decide, by decide, by decide, by decide⟩)
    rfl


end Sessions
